import Mathlib

/-!
Shallow embedding of the FoodShare server (src/server/storage.ts,
src/server/routes.ts, src/shared/schema.ts) together with the client
form normalization (food-listing-form component), and proofs of the
specification claims about it.

Conventions of the embedding:
* JavaScript numbers are modelled by `ℚ`; ids by `Nat`; timestamps
  (`Date` values) by `Nat` milliseconds.
* Nullable database columns (drizzle columns without `.notNull()`)
  are `Option` fields.
* A JavaScript `Map` keyed by id is an association list
  `List (Nat × α)` in insertion order: `Map.get` is `mapGet`,
  `Map.set` is `mapSet` (replacing in place when the key exists,
  appending otherwise), `Map.delete` is `mapDelete`,
  `Array.from(map.values())` is `mapValues`.
* `async` methods have no internal concurrency here; each storage
  method is a pure function from state to result and next state.
  `new Date()` is an explicit `now : Nat` argument.
-/

namespace FoodShare

/-- JavaScript truthiness of a nullable number: `!x` is true exactly when
`x` is `null`/`undefined` or `0` (`NaN` is not modelled). -/
def truthyNum : Option ℚ → Bool
  | none => false
  | some q => q != 0

/-- JavaScript truthiness of a nullable boolean. -/
def truthyBool : Option Bool → Bool
  | none => false
  | some b => b

/-- Row of the `users` table (schema.ts `users`). -/
structure User where
  id : Nat
  username : String
  password : String
  name : String
  email : String
  profileImage : Option String
  location : String
  latitude : Option ℚ
  longitude : Option ℚ
  bio : Option String
  createdAt : Option Nat
deriving Repr, DecidableEq

/-- Row of the `food_listings` table (schema.ts `foodListings`). -/
structure FoodListing where
  id : Nat
  title : String
  description : String
  images : Option (List String)
  price : Option ℚ
  isFree : Option Bool
  quantity : Int
  portionSize : Option String
  category : String
  ingredients : Option String
  allergens : Option String
  expiresAt : Nat
  location : String
  latitude : Option ℚ
  longitude : Option ℚ
  userId : Nat
  isAvailable : Option Bool
  createdAt : Option Nat
deriving Repr, DecidableEq

/-- Row of the `messages` table (schema.ts `messages`). -/
structure Message where
  id : Nat
  senderId : Nat
  receiverId : Nat
  content : String
  isRead : Option Bool
  createdAt : Option Nat
deriving Repr, DecidableEq

/-- Row of the `transactions` table (schema.ts `transactions`). -/
structure Transaction where
  id : Nat
  buyerId : Nat
  sellerId : Nat
  listingId : Nat
  status : String
  amount : Option ℚ
  isPaid : Option Bool
  createdAt : Option Nat
deriving Repr, DecidableEq

/-- Payload accepted by `insertFoodListingSchema` (schema.ts): the picked
columns plus the preprocessed required `expiresAt` date.  The zod schema
imposes only the field types shown here; it has no cross-field
refinement (in particular none linking `isFree` and `price`). -/
structure InsertFoodListing where
  title : String
  description : String
  images : Option (List String)
  price : Option ℚ
  isFree : Option Bool
  quantity : Int
  portionSize : Option String
  category : String
  ingredients : Option String
  allergens : Option String
  location : String
  latitude : Option ℚ
  longitude : Option ℚ
  userId : Nat
  expiresAt : Nat
deriving Repr, DecidableEq

/-- Payload accepted by `insertMessageSchema` (schema.ts). -/
structure InsertMessage where
  senderId : Nat
  receiverId : Nat
  content : String
deriving Repr, DecidableEq

/-- Payload accepted by `insertTransactionSchema` (schema.ts). -/
structure InsertTransaction where
  buyerId : Nat
  sellerId : Nat
  listingId : Nat
  status : String
  amount : Option ℚ
  isPaid : Option Bool
deriving Repr, DecidableEq

/-- A TypeScript `Partial<User>`: every column optionally present.
`none` means the key is absent from the object, so the spread
`\x7b ...user, ...userData \x7d` keeps the old value. -/
structure UserPatch where
  id : Option Nat := none
  username : Option String := none
  password : Option String := none
  name : Option String := none
  email : Option String := none
  profileImage : Option (Option String) := none
  location : Option String := none
  latitude : Option (Option ℚ) := none
  longitude : Option (Option ℚ) := none
  bio : Option (Option String) := none
  createdAt : Option (Option Nat) := none
deriving Repr, DecidableEq

/-- A TypeScript `Partial<FoodListing>` (the body of the unvalidated
`PUT /api/food-listings/:id` route). -/
structure FoodListingPatch where
  id : Option Nat := none
  title : Option String := none
  description : Option String := none
  images : Option (Option (List String)) := none
  price : Option (Option ℚ) := none
  isFree : Option (Option Bool) := none
  quantity : Option Int := none
  portionSize : Option (Option String) := none
  category : Option String := none
  ingredients : Option (Option String) := none
  allergens : Option (Option String) := none
  expiresAt : Option Nat := none
  location : Option String := none
  latitude : Option (Option ℚ) := none
  longitude : Option (Option ℚ) := none
  userId : Option Nat := none
  isAvailable : Option (Option Bool) := none
  createdAt : Option (Option Nat) := none
deriving Repr, DecidableEq

/-- Spread merge `\x7b ...user, ...userData \x7d` for users. -/
def mergeUser (u : User) (p : UserPatch) : User where
  id := p.id.getD u.id
  username := p.username.getD u.username
  password := p.password.getD u.password
  name := p.name.getD u.name
  email := p.email.getD u.email
  profileImage := p.profileImage.getD u.profileImage
  location := p.location.getD u.location
  latitude := p.latitude.getD u.latitude
  longitude := p.longitude.getD u.longitude
  bio := p.bio.getD u.bio
  createdAt := p.createdAt.getD u.createdAt

/-- Spread merge `\x7b ...listing, ...listingData \x7d` for listings. -/
def mergeFoodListing (l : FoodListing) (p : FoodListingPatch) : FoodListing where
  id := p.id.getD l.id
  title := p.title.getD l.title
  description := p.description.getD l.description
  images := p.images.getD l.images
  price := p.price.getD l.price
  isFree := p.isFree.getD l.isFree
  quantity := p.quantity.getD l.quantity
  portionSize := p.portionSize.getD l.portionSize
  category := p.category.getD l.category
  ingredients := p.ingredients.getD l.ingredients
  allergens := p.allergens.getD l.allergens
  expiresAt := p.expiresAt.getD l.expiresAt
  location := p.location.getD l.location
  latitude := p.latitude.getD l.latitude
  longitude := p.longitude.getD l.longitude
  userId := p.userId.getD l.userId
  isAvailable := p.isAvailable.getD l.isAvailable
  createdAt := p.createdAt.getD l.createdAt

/-- JavaScript `Map.get`. -/
def mapGet {α : Type} (l : List (Nat × α)) (k : Nat) : Option α :=
  (l.find? (fun p => p.1 == k)).map (fun p => p.2)

/-- JavaScript `Map.has` (also the test performed by `Map.set` when it
decides between updating in place and appending). -/
def mapHas {α : Type} (l : List (Nat × α)) (k : Nat) : Bool :=
  l.any (fun p => p.1 == k)

/-- Pointwise update used by `mapSet` when the key is already present. -/
def setEntry {α : Type} (k : Nat) (v : α) (p : Nat × α) : Nat × α :=
  if p.1 == k then (k, v) else p

/-- JavaScript `Map.set`: replaces the binding in place when the key is
present, otherwise appends it (insertion order is preserved). -/
def mapSet {α : Type} (l : List (Nat × α)) (k : Nat) (v : α) : List (Nat × α) :=
  if mapHas l k then l.map (setEntry k v)
  else l ++ [(k, v)]

/-- JavaScript `Map.delete` (the state part; existence is `mapHas`). -/
def mapDelete {α : Type} (l : List (Nat × α)) (k : Nat) : List (Nat × α) :=
  l.filter (fun p => p.1 != k)

/-- JavaScript `Array.from(map.values())` in insertion order. -/
def mapValues {α : Type} (l : List (Nat × α)) : List α :=
  l.map (fun p => p.2)

theorem setEntry_of_beq_true {α : Type} (k : Nat) (v : α) (p : Nat × α)
    (hp : (p.1 == k) = true) : setEntry k v p = (k, v) := by
  simp [setEntry, hp]

theorem setEntry_of_beq_false {α : Type} (k : Nat) (v : α) (p : Nat × α)
    (hp : (p.1 == k) = false) : setEntry k v p = p := by
  simp [setEntry, hp]

theorem find?_map_setFn_self {α : Type} (l : List (Nat × α)) (k : Nat) (v : α)
    (h : mapHas l k = true) :
    (l.map (setEntry k v)).find? (fun p => p.1 == k) = some (k, v) := by
  induction l with
  | nil => simp [mapHas] at h
  | cons p t ih =>
    by_cases hp : (p.1 == k) = true
    · rw [List.map_cons, setEntry_of_beq_true k v p hp, List.find?_cons]
      have hkk : ((((k, v) : Nat × α)).1 == k) = true := by simp
      rw [hkk]
    · have hp' : (p.1 == k) = false := by simpa using hp
      have ht : mapHas t k = true := by
        have h1 := h
        simp only [mapHas, List.any_cons, Bool.or_eq_true] at h1
        rcases h1 with h1 | h1
        · exact absurd h1 hp
        · exact h1
      rw [List.map_cons, setEntry_of_beq_false k v p hp', List.find?_cons, hp']
      exact ih ht

theorem find?_map_setFn_ne {α : Type} (l : List (Nat × α)) (k j : Nat) (v : α)
    (h : j ≠ k) :
    (l.map (setEntry k v)).find? (fun p => p.1 == j)
      = l.find? (fun p => p.1 == j) := by
  induction l with
  | nil => rfl
  | cons p t ih =>
    by_cases hp : (p.1 == k) = true
    · have hpk : p.1 = k := by simpa using hp
      have hkj : (k == j) = false := by
        simp only [beq_eq_false_iff_ne]
        exact fun hkj => h hkj.symm
      have hpj : (p.1 == j) = false := by rw [hpk]; exact hkj
      rw [List.map_cons, setEntry_of_beq_true k v p hp, List.find?_cons,
        List.find?_cons]
      rw [show ((((k, v) : Nat × α)).1 == j) = (k == j) from rfl, hkj, hpj]
      exact ih
    · have hp' : (p.1 == k) = false := by simpa using hp
      rw [List.map_cons, setEntry_of_beq_false k v p hp', List.find?_cons,
        List.find?_cons]
      by_cases hpj : (p.1 == j) = true
      · rw [hpj]
      · have hpj' : (p.1 == j) = false := by simpa using hpj
        rw [hpj']
        exact ih

theorem find?_eq_none_of_not_has {α : Type} (l : List (Nat × α)) (k : Nat)
    (h : mapHas l k = false) : l.find? (fun p => p.1 == k) = none := by
  rw [List.find?_eq_none]
  intro p hp
  simp only [mapHas, List.any_eq_true, not_exists] at h
  have := List.any_eq_false.mp h p hp
  simpa using this

theorem mapGet_mapSet_self {α : Type} (l : List (Nat × α)) (k : Nat) (v : α) :
    mapGet (mapSet l k v) k = some v := by
  unfold mapSet
  by_cases h : mapHas l k = true
  · rw [if_pos h]
    unfold mapGet
    rw [find?_map_setFn_self l k v h]
    rfl
  · have h0 : mapHas l k = false := by simpa using h
    rw [if_neg h]
    unfold mapGet
    rw [List.find?_append, find?_eq_none_of_not_has l k h0]
    simp [List.find?_cons]

theorem mapGet_mapSet_ne {α : Type} (l : List (Nat × α)) (k j : Nat) (v : α)
    (h : j ≠ k) : mapGet (mapSet l k v) j = mapGet l j := by
  unfold mapSet
  by_cases hh : mapHas l k = true
  · rw [if_pos hh]
    unfold mapGet
    rw [find?_map_setFn_ne l k j v h]
  · have hkj : (k == j) = false := by
      simp only [beq_eq_false_iff_ne]
      exact fun hkj => h hkj.symm
    rw [if_neg hh]
    unfold mapGet
    rw [List.find?_append]
    simp [List.find?_cons, hkj]

/-- State of `MemStorage` (storage.ts lines 51-251): one JavaScript `Map`
per entity plus the `current...Id` counters.  Reviews and the session
store play no part in any claim and are omitted. -/
structure MemState where
  users : List (Nat × User) := []
  foodListings : List (Nat × FoodListing) := []
  messages : List (Nat × Message) := []
  transactions : List (Nat × Transaction) := []
  currentUserId : Nat := 1
  currentFoodListingId : Nat := 1
  currentMessageId : Nat := 1
  currentTransactionId : Nat := 1
deriving Repr, DecidableEq

/-- State of `DatabaseStorage` (storage.ts lines 253-476): one row list
per table, plus the serial sequences that generate primary keys. -/
structure DbState where
  users : List User := []
  foodListings : List FoodListing := []
  messages : List Message := []
  transactions : List Transaction := []
  nextUserId : Nat := 1
  nextFoodListingId : Nat := 1
  nextMessageId : Nat := 1
  nextTransactionId : Nat := 1
deriving Repr, DecidableEq

/-- Record built by `MemStorage.createFoodListing`:
`\x7b ...listing, id, createdAt, isAvailable \x7d` with `isAvailable = true`
(storage.ts lines 115-122). -/
def listingFromInsert (l : InsertFoodListing) (id now : Nat) : FoodListing where
  id := id
  title := l.title
  description := l.description
  images := l.images
  price := l.price
  isFree := l.isFree
  quantity := l.quantity
  portionSize := l.portionSize
  category := l.category
  ingredients := l.ingredients
  allergens := l.allergens
  expiresAt := l.expiresAt
  location := l.location
  latitude := l.latitude
  longitude := l.longitude
  userId := l.userId
  isAvailable := some true
  createdAt := some now

/-- Record built by `MemStorage.createMessage`:
`\x7b ...message, id, createdAt, isRead \x7d` with `isRead = false`
(storage.ts lines 168-175). -/
def messageFromInsert (m : InsertMessage) (id now : Nat) : Message where
  id := id
  senderId := m.senderId
  receiverId := m.receiverId
  content := m.content
  isRead := some false
  createdAt := some now

/-- Record built by `MemStorage.createTransaction`:
`\x7b ...transaction, id, createdAt \x7d` (storage.ts lines 204-210).
`isPaid` stays whatever the payload carried. -/
def transactionFromInsert (t : InsertTransaction) (id now : Nat) : Transaction where
  id := id
  buyerId := t.buyerId
  sellerId := t.sellerId
  listingId := t.listingId
  status := t.status
  amount := t.amount
  isPaid := t.isPaid
  createdAt := some now

/-- `MemStorage.getFoodListing` (storage.ts lines 124-126). -/
def memGetFoodListing (s : MemState) (id : Nat) : Option FoodListing :=
  mapGet s.foodListings id

/-- `MemStorage.createFoodListing` (storage.ts lines 115-122). -/
def memCreateFoodListing (s : MemState) (l : InsertFoodListing) (now : Nat) :
    FoodListing × MemState :=
  let id := s.currentFoodListingId
  let foodListing := listingFromInsert l id now
  (foodListing,
    { s with
        foodListings := mapSet s.foodListings id foodListing
        currentFoodListingId := id + 1 })

/-- `MemStorage.updateFoodListing` (storage.ts lines 150-157). -/
def memUpdateFoodListing (s : MemState) (id : Nat) (p : FoodListingPatch) :
    Option FoodListing × MemState :=
  match mapGet s.foodListings id with
  | none => (none, s)
  | some listing =>
    let updatedListing := mergeFoodListing listing p
    (some updatedListing,
      { s with foodListings := mapSet s.foodListings id updatedListing })

/-- `MemStorage.deleteFoodListing` (storage.ts lines 159-161). -/
def memDeleteFoodListing (s : MemState) (id : Nat) : Bool × MemState :=
  (mapHas s.foodListings id,
    { s with foodListings := mapDelete s.foodListings id })

/-- `MemStorage.getAllFoodListings` (storage.ts lines 163-165). -/
def memGetAllFoodListings (s : MemState) : List FoodListing :=
  mapValues s.foodListings

/-- `MemStorage.createMessage` (storage.ts lines 168-175). -/
def memCreateMessage (s : MemState) (m : InsertMessage) (now : Nat) :
    Message × MemState :=
  let id := s.currentMessageId
  let newMessage := messageFromInsert m id now
  (newMessage,
    { s with
        messages := mapSet s.messages id newMessage
        currentMessageId := id + 1 })

/-- `MemStorage.markMessageAsRead` (storage.ts lines 194-201): fetch the
message, set `isRead = true` on it, store it back under the same key,
return whether it existed. -/
def memMarkMessageAsRead (s : MemState) (id : Nat) : Bool × MemState :=
  match mapGet s.messages id with
  | none => (false, s)
  | some message =>
    let message := { message with isRead := some true }
    (true, { s with messages := mapSet s.messages id message })

/-- `MemStorage.createTransaction` (storage.ts lines 204-210). -/
def memCreateTransaction (s : MemState) (t : InsertTransaction) (now : Nat) :
    Transaction × MemState :=
  let id := s.currentTransactionId
  let newTransaction := transactionFromInsert t id now
  (newTransaction,
    { s with
        transactions := mapSet s.transactions id newTransaction
        currentTransactionId := id + 1 })

/-- `MemStorage.updateUser` (storage.ts lines 105-112). -/
def memUpdateUser (s : MemState) (id : Nat) (p : UserPatch) :
    Option User × MemState :=
  match mapGet s.users id with
  | none => (none, s)
  | some user =>
    let updatedUser := mergeUser user p
    (some updatedUser, { s with users := mapSet s.users id updatedUser })

/-- Row inserted by `DatabaseStorage.createFoodListing` (storage.ts lines
294-303): `values(\x7b ...listing, isAvailable: true \x7d)`; `createdAt`
comes from the column default `now()`. -/
def dbCreateFoodListing (s : DbState) (l : InsertFoodListing) (now : Nat) :
    FoodListing × DbState :=
  let row := listingFromInsert l s.nextFoodListingId now
  (row,
    { s with
        foodListings := s.foodListings ++ [row]
        nextFoodListingId := s.nextFoodListingId + 1 })

/-- `DatabaseStorage.getFoodListing` (storage.ts lines 305-311):
`select ... where eq(foodListings.id, id)`, destructuring the first row. -/
def dbGetFoodListing (s : DbState) (id : Nat) : Option FoodListing :=
  s.foodListings.find? (fun r => r.id == id)

/-- `DatabaseStorage.updateFoodListing` (storage.ts lines 343-350):
`update ... set(listingData) where eq(id) returning`. -/
def dbUpdateFoodListing (s : DbState) (id : Nat) (p : FoodListingPatch) :
    Option FoodListing × DbState :=
  ((s.foodListings.find? (fun r => r.id == id)).map (fun r => mergeFoodListing r p),
    { s with
        foodListings :=
          s.foodListings.map (fun r => if r.id == id then mergeFoodListing r p else r) })

/-- `DatabaseStorage.deleteFoodListing` (storage.ts lines 352-358). -/
def dbDeleteFoodListing (s : DbState) (id : Nat) : Bool × DbState :=
  (s.foodListings.any (fun r => r.id == id),
    { s with foodListings := s.foodListings.filter (fun r => r.id != id) })

/-- `DatabaseStorage.createMessage` (storage.ts lines 365-374):
`values(\x7b ...message, isRead: false \x7d)`; `createdAt` defaults. -/
def dbCreateMessage (s : DbState) (m : InsertMessage) (now : Nat) :
    Message × DbState :=
  let row := messageFromInsert m s.nextMessageId now
  (row,
    { s with
        messages := s.messages ++ [row]
        nextMessageId := s.nextMessageId + 1 })

/-- Lookup of a message row by primary key in `DatabaseStorage`. -/
def dbGetMessage (s : DbState) (id : Nat) : Option Message :=
  s.messages.find? (fun r => r.id == id)

/-- `DatabaseStorage.markMessageAsRead` (storage.ts lines 407-414):
`update messages set isRead = true where eq(id) returning`, success is
a nonempty returned row set. -/
def dbMarkMessageAsRead (s : DbState) (id : Nat) : Bool × DbState :=
  (s.messages.any (fun r => r.id == id),
    { s with
        messages :=
          s.messages.map (fun r => if r.id == id then { r with isRead := some true } else r) })

/-- Row inserted by `DatabaseStorage.createTransaction` (storage.ts lines
417-423): plain `values(transaction)`; the `isPaid` column default
`false` applies when the payload omits the field. -/
def dbCreateTransaction (s : DbState) (t : InsertTransaction) (now : Nat) :
    Transaction × DbState :=
  let row := { transactionFromInsert t s.nextTransactionId now with
               isPaid := some (t.isPaid.getD false) }
  (row,
    { s with
        transactions := s.transactions ++ [row]
        nextTransactionId := s.nextTransactionId + 1 })

/-- `DatabaseStorage.updateUser` (storage.ts lines 284-291). -/
def dbUpdateUser (s : DbState) (id : Nat) (p : UserPatch) :
    Option User × DbState :=
  ((s.users.find? (fun r => r.id == id)).map (fun r => mergeUser r p),
    { s with
        users := s.users.map (fun r => if r.id == id then mergeUser r p else r) })

/-- Lookup of a user row by primary key in `DatabaseStorage`. -/
def dbGetUser (s : DbState) (id : Nat) : Option User :=
  s.users.find? (fun r => r.id == id)

/-- Squared-form encoding of the comparison
`Math.sqrt(latDiff*latDiff + lngDiff*lngDiff) * 69 <= radiusMiles`
performed by `MemStorage.getFoodListingsByLocation` (storage.ts lines
139-146).  The square root is eliminated so the predicate stays
decidable; `approxDistanceWithin_iff_sqrt` proves the encoding equal to
the source's square-root form over the reals. -/
def approxDistanceWithin (latDiff lngDiff radiusMiles : ℚ) : Bool :=
  decide (0 ≤ radiusMiles ∧
    (latDiff * latDiff + lngDiff * lngDiff) * (69 * 69) ≤ radiusMiles * radiusMiles)

/-- Filter body of `MemStorage.getFoodListingsByLocation` (storage.ts
lines 136-147).  Note the guard `!listing.latitude || !listing.longitude`
is JavaScript falsiness: it rejects `null` and `0` alike. -/
def memLocationPred (lat lng radiusMiles : ℚ) (listing : FoodListing) : Bool :=
  if !(truthyNum listing.latitude) || !(truthyNum listing.longitude) then false
  else
    let latDiff := |listing.latitude.getD 0 - lat|
    let lngDiff := |listing.longitude.getD 0 - lng|
    approxDistanceWithin latDiff lngDiff radiusMiles && truthyBool listing.isAvailable

/-- `MemStorage.getFoodListingsByLocation` (storage.ts lines 134-148). -/
def memGetFoodListingsByLocation (s : MemState) (lat lng radiusMiles : ℚ) :
    List FoodListing :=
  (mapValues s.foodListings).filter (memLocationPred lat lng radiusMiles)

/-- `DatabaseStorage.getFoodListingsByLocation` (storage.ts lines
320-341): select the rows with `isAvailable = true`, then filter in
memory.  The helper `calculateDistance` it calls lives in
`@/lib/geolocation`, which is not part of the sources; the test
`calculateDistance(lat, lng, listing.latitude, listing.longitude)
<= radiusMiles` is therefore abstracted as the parameter `within`
applied to the listing's coordinates.  The falsiness guard on the
coordinates is in the sources and is kept verbatim. -/
def dbGetFoodListingsByLocation (within : ℚ → ℚ → Bool) (s : DbState) :
    List FoodListing :=
  (s.foodListings.filter (fun r => r.isAvailable == some true)).filter
    (fun listing =>
      if !(truthyNum listing.latitude) || !(truthyNum listing.longitude) then false
      else within (listing.latitude.getD 0) (listing.longitude.getD 0))

/-- Modelled from the spec: the great-circle (haversine) distance in
miles between two points given in degrees, which the spec names as the
distance used by location search ("standard great-circle
(haversine-style) formula on degrees of latitude/longitude").  The
implementation `calculateDistance` in `@/lib/geolocation` is not among
the sources. -/
noncomputable def haversineMiles (lat1 lng1 lat2 lng2 : ℝ) : ℝ :=
  let rad : ℝ → ℝ := fun d => d * Real.pi / 180
  let dLat := rad (lat2 - lat1)
  let dLng := rad (lng2 - lng1)
  let a := Real.sin (dLat / 2) ^ 2 +
    Real.cos (rad lat1) * Real.cos (rad lat2) * Real.sin (dLng / 2) ^ 2
  2 * 3959 * Real.arcsin (Real.sqrt a)

theorem haversineMiles_self (lat lng : ℝ) : haversineMiles lat lng lat lng = 0 := by
  unfold haversineMiles
  simp

/-- Insertion step of the stable sort used to model
`Array.prototype.sort`. -/
def insertLe {α : Type} (le : α → α → Bool) (a : α) : List α → List α
  | [] => [a]
  | b :: l => if le a b then a :: b :: l else b :: insertLe le a l

/-- Insertion sort used to model `Array.prototype.sort(comparator)`.
ECMAScript fixes the result of `sort` only up to the comparator (for a
consistent comparator the output is a sorted, stable permutation);
insertion sort realizes that contract. -/
def sortLe {α : Type} (le : α → α → Bool) : List α → List α
  | [] => []
  | a :: l => insertLe le a (sortLe le l)

/-- Comparator passed to `sort` by `MemStorage.getConversation`
(storage.ts lines 188-191): `0` when either timestamp is missing, else
the signed difference. -/
def memMsgCmp (a b : Message) : Int :=
  match a.createdAt, b.createdAt with
  | some ta, some tb => (ta : Int) - (tb : Int)
  | _, _ => 0

/-- Boolean order induced by the comparator: `a` may precede `b` when
`comparator(a, b) <= 0`. -/
def memMsgLe (a b : Message) : Bool :=
  decide (memMsgCmp a b ≤ 0)

/-- Conversation filter (storage.ts lines 184-187 and 392-403): the
message's sender/receiver pair is `(u1, u2)` or `(u2, u1)`. -/
def conversationPred (u1 u2 : Nat) (m : Message) : Bool :=
  (m.senderId == u1 && m.receiverId == u2) ||
    (m.senderId == u2 && m.receiverId == u1)

/-- `MemStorage.getConversation` (storage.ts lines 183-192). -/
def memGetConversation (s : MemState) (u1 u2 : Nat) : List Message :=
  sortLe memMsgLe ((mapValues s.messages).filter (conversationPred u1 u2))

/-- Order produced by the SQL `orderBy(messages.createdAt)` of
`DatabaseStorage.getConversation`: ascending with `NULL` last
(PostgreSQL default for `ASC`). -/
def dbMsgLe (a b : Message) : Bool :=
  match a.createdAt, b.createdAt with
  | some ta, some tb => decide (ta ≤ tb)
  | some _, none => true
  | none, some _ => false
  | none, none => true

/-- `DatabaseStorage.getConversation` (storage.ts lines 388-405). -/
def dbGetConversation (s : DbState) (u1 u2 : Nat) : List Message :=
  sortLe dbMsgLe (s.messages.filter (conversationPred u1 u2))

theorem mem_insertLe {α : Type} (le : α → α → Bool) (a x : α) (l : List α) :
    x ∈ insertLe le a l ↔ x = a ∨ x ∈ l := by
  induction l with
  | nil => simp [insertLe]
  | cons b t ih =>
    by_cases h : le a b = true
    · simp [insertLe, h]
    · have h' : le a b = false := by simpa using h
      simp only [insertLe, h', Bool.false_eq_true, if_false, List.mem_cons, ih]
      tauto

theorem mem_sortLe {α : Type} (le : α → α → Bool) (x : α) (l : List α) :
    x ∈ sortLe le l ↔ x ∈ l := by
  induction l with
  | nil => simp [sortLe]
  | cons a t ih =>
    simp only [sortLe, mem_insertLe, List.mem_cons, ih]

theorem insertLe_congr {α : Type} (le le' : α → α → Bool) (a : α) (l : List α)
    (h : ∀ x ∈ l, le a x = le' a x) : insertLe le a l = insertLe le' a l := by
  induction l with
  | nil => rfl
  | cons b t ih =>
    have hb : le a b = le' a b := h b (by simp)
    by_cases hab : le a b = true
    · simp [insertLe, hab, hb ▸ hab]
    · have hab' : le a b = false := by simpa using hab
      have hab2 : le' a b = false := hb ▸ hab'
      simp only [insertLe, hab', hab2, Bool.false_eq_true, if_false,
        List.cons.injEq, true_and]
      exact ih (fun x hx => h x (by simp [hx]))

theorem sortLe_congr {α : Type} (le le' : α → α → Bool) (l : List α)
    (h : ∀ x ∈ l, ∀ y ∈ l, le x y = le' x y) : sortLe le l = sortLe le' l := by
  induction l with
  | nil => rfl
  | cons a t ih =>
    have ht : sortLe le t = sortLe le' t :=
      ih (fun x hx y hy => h x (by simp [hx]) y (by simp [hy]))
    simp only [sortLe, ht]
    apply insertLe_congr
    intro x hx
    have hx' : x ∈ t := (mem_sortLe le' x t).mp (ht ▸ hx)
    exact h a (by simp) x (by simp [hx'])

theorem pairwise_insertLe {α : Type} (le : α → α → Bool)
    (htot : ∀ a b, le a b = false → le b a = true)
    (htrans : ∀ a b c, le a b = true → le b c = true → le a c = true)
    (a : α) (l : List α) (hl : l.Pairwise (fun x y => le x y = true)) :
    (insertLe le a l).Pairwise (fun x y => le x y = true) := by
  induction l with
  | nil => simp [insertLe]
  | cons b t ih =>
    rcases List.pairwise_cons.mp hl with ⟨hb, ht⟩
    by_cases hab : le a b = true
    · simp only [insertLe, hab, if_true]
      refine List.pairwise_cons.mpr ⟨?_, hl⟩
      intro x hx
      rcases List.mem_cons.mp hx with heq | hx
      · rw [heq]; exact hab
      · exact htrans a b x hab (hb x hx)
    · have hab' : le a b = false := by simpa using hab
      simp only [insertLe, hab', Bool.false_eq_true, if_false]
      refine List.pairwise_cons.mpr ⟨?_, ih ht⟩
      intro x hx
      rcases (mem_insertLe le a x t).mp hx with heq | hx
      · rw [heq]; exact htot a b hab'
      · exact hb x hx

theorem pairwise_sortLe {α : Type} (le : α → α → Bool)
    (htot : ∀ a b, le a b = false → le b a = true)
    (htrans : ∀ a b c, le a b = true → le b c = true → le a c = true)
    (l : List α) : (sortLe le l).Pairwise (fun x y => le x y = true) := by
  induction l with
  | nil => simp [sortLe]
  | cons a t ih => exact pairwise_insertLe le htot htrans a (sortLe le t) ih

/-- Reference order on messages: non-decreasing stored creation time
(missing timestamps read as `0`; the claims only use it on messages
whose timestamp is present). -/
def tsLe (a b : Message) : Bool :=
  decide (a.createdAt.getD 0 ≤ b.createdAt.getD 0)

theorem tsLe_total (a b : Message) (h : tsLe a b = false) : tsLe b a = true := by
  simp only [tsLe, decide_eq_false_iff_not, not_le] at h
  simpa [tsLe] using le_of_lt h

theorem tsLe_trans (a b c : Message) (hab : tsLe a b = true)
    (hbc : tsLe b c = true) : tsLe a c = true := by
  simp only [tsLe, decide_eq_true_eq] at hab hbc ⊢
  exact le_trans hab hbc

theorem memMsgLe_eq_tsLe (a b : Message) (ha : a.createdAt.isSome)
    (hb : b.createdAt.isSome) : memMsgLe a b = tsLe a b := by
  rcases Option.isSome_iff_exists.mp ha with ⟨ta, hta⟩
  rcases Option.isSome_iff_exists.mp hb with ⟨tb, htb⟩
  simp [memMsgLe, memMsgCmp, tsLe, hta, htb, sub_nonpos]

theorem dbMsgLe_eq_tsLe (a b : Message) (ha : a.createdAt.isSome)
    (hb : b.createdAt.isSome) : dbMsgLe a b = tsLe a b := by
  rcases Option.isSome_iff_exists.mp ha with ⟨ta, hta⟩
  rcases Option.isSome_iff_exists.mp hb with ⟨tb, htb⟩
  simp [dbMsgLe, tsLe, hta, htb]

/-- The slice of the `IStorage` interface (storage.ts lines 13-49) that
the routes under verification use.  `MemStorage` and `DatabaseStorage`
below instantiate it; the route handlers are written once against it,
mirroring routes.ts, which calls these methods through the interface. -/
structure StorageImpl (σ : Type) where
  getFoodListing : σ → Nat → Option FoodListing
  createFoodListing : σ → InsertFoodListing → Nat → FoodListing × σ
  updateFoodListing : σ → Nat → FoodListingPatch → Option FoodListing × σ
  deleteFoodListing : σ → Nat → Bool × σ
  createMessage : σ → InsertMessage → Nat → Message × σ
  markMessageAsRead : σ → Nat → Bool × σ
  createTransaction : σ → InsertTransaction → Nat → Transaction × σ
  updateUser : σ → Nat → UserPatch → Option User × σ

/-- `MemStorage` as a `StorageImpl`. -/
def memStorage : StorageImpl MemState where
  getFoodListing := memGetFoodListing
  createFoodListing := memCreateFoodListing
  updateFoodListing := memUpdateFoodListing
  deleteFoodListing := memDeleteFoodListing
  createMessage := memCreateMessage
  markMessageAsRead := memMarkMessageAsRead
  createTransaction := memCreateTransaction
  updateUser := memUpdateUser

/-- `DatabaseStorage` as a `StorageImpl` (the instance routes.ts actually
imports, storage.ts line 479). -/
def dbStorage : StorageImpl DbState where
  getFoodListing := dbGetFoodListing
  createFoodListing := dbCreateFoodListing
  updateFoodListing := dbUpdateFoodListing
  deleteFoodListing := dbDeleteFoodListing
  createMessage := dbCreateMessage
  markMessageAsRead := dbMarkMessageAsRead
  createTransaction := dbCreateTransaction
  updateUser := dbUpdateUser

/-- `POST /api/food-listings` handler (routes.ts lines 73-84), after
`isAuthenticated` and `validateBody(insertFoodListingSchema)` succeed:
`createFoodListing(\x7b ...req.body, userId \x7d)` with
`userId = req.user.id`, responding 201 with the listing. -/
def routePostFoodListing {σ : Type} (st : StorageImpl σ) (s : σ)
    (callerId : Nat) (body : InsertFoodListing) (now : Nat) :
    Nat × FoodListing × σ :=
  let r := st.createFoodListing s { body with userId := callerId } now
  (201, r.1, r.2)

/-- `PUT /api/food-listings/:id` handler (routes.ts lines 86-105):
404 when the listing is missing, 403 when the caller does not own it,
otherwise update and respond 200. -/
def routePutFoodListing {σ : Type} (st : StorageImpl σ) (s : σ)
    (callerId listingId : Nat) (body : FoodListingPatch) : Nat × σ :=
  match st.getFoodListing s listingId with
  | none => (404, s)
  | some listing =>
    if listing.userId != callerId then (403, s)
    else (200, (st.updateFoodListing s listingId body).2)

/-- `DELETE /api/food-listings/:id` handler (routes.ts lines 107-126). -/
def routeDeleteFoodListing {σ : Type} (st : StorageImpl σ) (s : σ)
    (callerId listingId : Nat) : Nat × σ :=
  match st.getFoodListing s listingId with
  | none => (404, s)
  | some listing =>
    if listing.userId != callerId then (403, s)
    else (204, (st.deleteFoodListing s listingId).2)

/-- `POST /api/messages` handler (routes.ts lines 161-172):
`createMessage(\x7b ...req.body, senderId \x7d)` with
`senderId = req.user.id`. -/
def routePostMessage {σ : Type} (st : StorageImpl σ) (s : σ)
    (callerId : Nat) (body : InsertMessage) (now : Nat) :
    Nat × Message × σ :=
  let r := st.createMessage s { body with senderId := callerId } now
  (201, r.1, r.2)

/-- `PUT /api/messages/:id/read` handler (routes.ts lines 174-187): it
calls `markMessageAsRead` directly — no ownership or participant check
appears anywhere in the handler — and answers 204 on success, 404 when
the message does not exist. -/
def routePutMessageRead {σ : Type} (st : StorageImpl σ) (s : σ)
    (callerId messageId : Nat) : Nat × σ :=
  let r := st.markMessageAsRead s messageId
  if r.1 then (204, r.2) else (404, r.2)

/-- `POST /api/transactions` handler (routes.ts lines 220-231):
`createTransaction(\x7b ...req.body, buyerId \x7d)` with
`buyerId = req.user.id`. -/
def routePostTransaction {σ : Type} (st : StorageImpl σ) (s : σ)
    (callerId : Nat) (body : InsertTransaction) (now : Nat) :
    Nat × Transaction × σ :=
  let r := st.createTransaction s { body with buyerId := callerId } now
  (201, r.1, r.2)

/-- `PUT /api/users/profile` handler (routes.ts lines 306-325):
destructure `password` out of the body, update with the rest. -/
def routePutUsersProfile {σ : Type} (st : StorageImpl σ) (s : σ)
    (callerId : Nat) (body : UserPatch) : Nat × σ :=
  let updatableFields := { body with password := none }
  let r := st.updateUser s callerId updatableFields
  match r.1 with
  | some _ => (200, r.2)
  | none => (404, r.2)

/-- Mutating operations the storage interface offers on food listings
(the only writers of `foodListings` in either implementation). -/
inductive ListingOp where
  | create (l : InsertFoodListing) (now : Nat)
  | update (id : Nat) (p : FoodListingPatch)
  | delete (id : Nat)

/-- Effect of a listing operation on `MemStorage`. -/
def memListingStep (s : MemState) : ListingOp → MemState
  | .create l now => (memCreateFoodListing s l now).2
  | .update id p => (memUpdateFoodListing s id p).2
  | .delete id => (memDeleteFoodListing s id).2

/-- Effect of a listing operation on `DatabaseStorage`. -/
def dbListingStep (s : DbState) : ListingOp → DbState
  | .create l now => (dbCreateFoodListing s l now).2
  | .update id p => (dbUpdateFoodListing s id p).2
  | .delete id => (dbDeleteFoodListing s id).2

/-- Mutating operations the storage interface offers on messages (the
only writers of `messages` in either implementation). -/
inductive MessageOp where
  | create (m : InsertMessage) (now : Nat)
  | markRead (id : Nat)

/-- Effect of a message operation on `MemStorage`. -/
def memMessageStep (s : MemState) : MessageOp → MemState
  | .create m now => (memCreateMessage s m now).2
  | .markRead id => (memMarkMessageAsRead s id).2

/-- Effect of a message operation on `DatabaseStorage`. -/
def dbMessageStep (s : DbState) : MessageOp → DbState
  | .create m now => (dbCreateMessage s m now).2
  | .markRead id => (dbMarkMessageAsRead s id).2

/-- Key freshness for `MemStorage` messages: every stored key is below
the auto-increment counter.  It holds in the initial empty state and is
preserved by every message operation. -/
def memMessageInv (s : MemState) : Prop :=
  ∀ p ∈ s.messages, p.1 < s.currentMessageId

/-- Key freshness for `MemStorage` listings. -/
def memListingInv (s : MemState) : Prop :=
  ∀ p ∈ s.foodListings, p.1 < s.currentFoodListingId

/-- Primary-key freshness for `DatabaseStorage` messages: every row id
is below the serial sequence value. -/
def dbMessageInv (s : DbState) : Prop :=
  ∀ r ∈ s.messages, r.id < s.nextMessageId

/-- Primary-key freshness for `DatabaseStorage` listings. -/
def dbListingInv (s : DbState) : Prop :=
  ∀ r ∈ s.foodListings, r.id < s.nextFoodListingId

theorem mapGet_eq_some_mem {α : Type} {l : List (Nat × α)} {k : Nat} {v : α}
    (h : mapGet l k = some v) : (k, v) ∈ l := by
  unfold mapGet at h
  rcases hfind : l.find? (fun p => p.1 == k) with _ | p
  · rw [hfind] at h; simp at h
  · rw [hfind] at h
    have hmem := List.mem_of_find?_eq_some hfind
    have hkey := List.find?_some hfind
    have hk : p.1 = k := by simpa using hkey
    have hv : p.2 = v := by simpa using h
    have : p = (k, v) := by
      cases p
      simp only [Prod.mk.injEq]
      exact ⟨hk, hv⟩
    rw [← this]
    exact hmem

theorem mapHas_eq_isSome {α : Type} (l : List (Nat × α)) (k : Nat) :
    mapHas l k = (mapGet l k).isSome := by
  induction l with
  | nil => rfl
  | cons p t ih =>
    by_cases hp : (p.1 == k) = true
    · simp [mapHas, mapGet, List.find?_cons, hp]
    · have hp' : (p.1 == k) = false := by simpa using hp
      simpa [mapHas, mapGet, List.find?_cons, hp'] using ih

theorem mapGet_mapDelete_self {α : Type} (l : List (Nat × α)) (k : Nat) :
    mapGet (mapDelete l k) k = none := by
  unfold mapGet
  have h : (mapDelete l k).find? (fun p => p.1 == k) = none := by
    rw [List.find?_eq_none]
    intro p hp
    have h2 := (List.mem_filter.mp hp).2
    simp only [bne_iff_ne, ne_eq] at h2
    simp only [beq_iff_eq]
    exact h2
  rw [h]
  rfl

theorem mapGet_mapDelete_ne {α : Type} (l : List (Nat × α)) (k j : Nat)
    (h : j ≠ k) : mapGet (mapDelete l k) j = mapGet l j := by
  unfold mapGet mapDelete
  congr 1
  induction l with
  | nil => rfl
  | cons p t ih =>
    by_cases hpk : (p.1 != k) = true
    · rw [List.filter_cons, if_pos hpk, List.find?_cons, List.find?_cons]
      cases hpj : p.1 == j
      · exact ih
      · rfl
    · have hpk' : p.1 = k := by simpa using hpk
      have hpj : (p.1 == j) = false := by
        simp only [beq_eq_false_iff_ne, hpk']
        exact fun hkj => h hkj.symm
      rw [List.filter_cons, if_neg hpk, List.find?_cons, hpj]
      exact ih

theorem mapHas_mapSet_self {α : Type} (l : List (Nat × α)) (k : Nat) (v : α) :
    mapHas (mapSet l k v) k = true := by
  rw [mapHas_eq_isSome, mapGet_mapSet_self]
  rfl

theorem map_setEntry_idem {α : Type} (k : Nat) (v : α) (l : List (Nat × α)) :
    (l.map (setEntry k v)).map (setEntry k v) = l.map (setEntry k v) := by
  rw [List.map_map]
  apply List.map_congr_left
  intro p _
  show setEntry k v (setEntry k v p) = setEntry k v p
  by_cases hp : (p.1 == k) = true
  · rw [setEntry_of_beq_true k v p hp, setEntry_of_beq_true]
    simp
  · have hp' : (p.1 == k) = false := by simpa using hp
    rw [setEntry_of_beq_false k v p hp', setEntry_of_beq_false k v p hp']

theorem mapSet_mapSet_same {α : Type} (l : List (Nat × α)) (k : Nat) (v : α) :
    mapSet (mapSet l k v) k v = mapSet l k v := by
  by_cases h : mapHas l k = true
  · have h1 : mapSet l k v = l.map (setEntry k v) := by rw [mapSet, if_pos h]
    have h2 : mapHas (mapSet l k v) k = true := mapHas_mapSet_self l k v
    rw [h1] at h2
    rw [h1, mapSet, if_pos h2, map_setEntry_idem]
  · have h0 : mapHas l k = false := by simpa using h
    have h1 : mapSet l k v = l ++ [(k, v)] := by rw [mapSet, if_neg h]
    have h2 : mapHas (mapSet l k v) k = true := mapHas_mapSet_self l k v
    rw [h1] at h2
    rw [h1, mapSet, if_pos h2, List.map_append]
    have h3 : l.map (setEntry k v) = l := by
      have hcongr : l.map (setEntry k v) = l.map id := by
        apply List.map_congr_left
        intro p hp
        have hpk : (p.1 == k) = false := by
          have h5 := List.any_eq_false.mp h0 p hp
          simpa using h5
        exact setEntry_of_beq_false k v p hpk
      rw [hcongr, List.map_id]
    have h4 : [(k, v)].map (setEntry k v) = [(k, v)] := by
      simp [setEntry]
    rw [h3, h4]

theorem find?_append_of_ne {α : Type} (l : List α) (q : α → Bool) (x : α)
    (hx : q x = false) : (l ++ [x]).find? q = l.find? q := by
  rw [List.find?_append]
  cases hf : l.find? q
  · simp [hx]
  · rfl

theorem find?_filter_of_imp {α : Type} (l : List α) (p q : α → Bool)
    (h : ∀ x, p x = true → q x = true) :
    (l.filter q).find? p = l.find? p := by
  induction l with
  | nil => rfl
  | cons a t ih =>
    by_cases hq : q a = true
    · rw [List.filter_cons, if_pos hq, List.find?_cons, List.find?_cons]
      cases hp : p a
      · exact ih
      · rfl
    · have hq' : q a = false := by simpa using hq
      have hp : p a = false := by
        cases hpa : p a
        · rfl
        · exact absurd (h a hpa) (by simp [hq'])
      rw [List.filter_cons, if_neg (by simpa using hq), List.find?_cons, hp]
      exact ih

/-- Client `FoodListingForm` submit logic (food-listing-form component):
`listingData = \x7b ...data, images: imageUrls, userId: user.id \x7d`, then
`if (listingData.isFree) \x7b listingData.price = 0; \x7d` before the create
mutation is fired. -/
def clientOnSubmitListing (data : InsertFoodListing) (imageUrls : List String)
    (userId : Nat) : InsertFoodListing :=
  let listingData := { data with images := some imageUrls, userId := userId }
  if truthyBool listingData.isFree then { listingData with price := some 0 }
  else listingData

theorem approxDistanceWithin_iff_sqrt (latDiff lngDiff radius : ℚ) :
    approxDistanceWithin latDiff lngDiff radius = true ↔
      Real.sqrt ((latDiff : ℝ) * latDiff + (lngDiff : ℝ) * lngDiff) * 69
        ≤ (radius : ℝ) := by
  unfold approxDistanceWithin
  rw [decide_eq_true_eq]
  have hdnn : (0 : ℝ) ≤ (latDiff : ℝ) * latDiff + (lngDiff : ℝ) * lngDiff :=
    add_nonneg (mul_self_nonneg _) (mul_self_nonneg _)
  constructor
  · rintro ⟨hr, hd⟩
    have hr' : (0 : ℝ) ≤ (radius : ℝ) := by exact_mod_cast hr
    have hd' : ((latDiff : ℝ) * latDiff + (lngDiff : ℝ) * lngDiff) * (69 * 69)
        ≤ (radius : ℝ) * radius := by exact_mod_cast hd
    have h69 : Real.sqrt ((69 : ℝ) * 69) = 69 := Real.sqrt_mul_self (by norm_num)
    calc Real.sqrt ((latDiff : ℝ) * latDiff + (lngDiff : ℝ) * lngDiff) * 69
        = Real.sqrt ((latDiff : ℝ) * latDiff + (lngDiff : ℝ) * lngDiff)
            * Real.sqrt ((69 : ℝ) * 69) := by rw [h69]
      _ = Real.sqrt (((latDiff : ℝ) * latDiff + (lngDiff : ℝ) * lngDiff)
            * ((69 : ℝ) * 69)) := (Real.sqrt_mul hdnn _).symm
      _ ≤ Real.sqrt ((radius : ℝ) * radius) := Real.sqrt_le_sqrt hd'
      _ = (radius : ℝ) := Real.sqrt_mul_self hr'
  · intro h
    have hs : (0 : ℝ)
        ≤ Real.sqrt ((latDiff : ℝ) * latDiff + (lngDiff : ℝ) * lngDiff) * 69 :=
      mul_nonneg (Real.sqrt_nonneg _) (by norm_num)
    have hr' : (0 : ℝ) ≤ (radius : ℝ) := le_trans hs h
    have hsq := mul_self_le_mul_self hs h
    have hd' : ((latDiff : ℝ) * latDiff + (lngDiff : ℝ) * lngDiff) * (69 * 69)
        ≤ (radius : ℝ) * radius := by
      calc ((latDiff : ℝ) * latDiff + (lngDiff : ℝ) * lngDiff) * (69 * 69)
          = (Real.sqrt ((latDiff : ℝ) * latDiff + (lngDiff : ℝ) * lngDiff)
              * Real.sqrt ((latDiff : ℝ) * latDiff + (lngDiff : ℝ) * lngDiff))
              * (69 * 69) := by rw [Real.mul_self_sqrt hdnn]
        _ = (Real.sqrt ((latDiff : ℝ) * latDiff + (lngDiff : ℝ) * lngDiff) * 69)
              * (Real.sqrt ((latDiff : ℝ) * latDiff + (lngDiff : ℝ) * lngDiff)
              * 69) := by ring
        _ ≤ (radius : ℝ) * radius := hsq
    refine ⟨by exact_mod_cast hr', by exact_mod_cast hd'⟩

/-- C7: for every food listing and every authenticated caller who is not
the listing's owner, `PUT /api/food-listings/:id` and
`DELETE /api/food-listings/:id` answer 403 and leave the storage state
untouched (the update/delete methods are never invoked) — proved for
every storage implementation at once. -/
theorem nonowner_listing_mutation_403 (σ : Type) (st : StorageImpl σ) (s : σ)
    (callerId listingId : Nat) (body : FoodListingPatch)
    (listing : FoodListing)
    (hget : st.getFoodListing s listingId = some listing)
    (hne : listing.userId ≠ callerId) :
    routePutFoodListing st s callerId listingId body = (403, s) ∧
    routeDeleteFoodListing st s callerId listingId = (403, s) := by
  have hb : (listing.userId != callerId) = true := by simpa using hne
  constructor
  · unfold routePutFoodListing
    rw [hget]
    simp [hb]
  · unfold routeDeleteFoodListing
    rw [hget]
    simp [hb]

/-- Listing used by the C7 witness: owned by user 1. -/
def c7listing : FoodListing where
  id := 1
  title := "Soup"
  description := "Lentil soup"
  images := none
  price := none
  isFree := some true
  quantity := 1
  portionSize := none
  category := "Meals"
  ingredients := none
  allergens := none
  expiresAt := 10
  location := "Springfield"
  latitude := none
  longitude := none
  userId := 1
  isAvailable := some true
  createdAt := some 0

/-- State used by the C7 witness. -/
def c7state : MemState where
  foodListings := [(1, c7listing)]
  currentFoodListingId := 2

theorem nonowner_listing_mutation_403_witness :
    routePutFoodListing memStorage c7state 2 1 {} = (403, c7state) ∧
    routeDeleteFoodListing memStorage c7state 2 1 = (403, c7state) :=
  nonowner_listing_mutation_403 MemState memStorage c7state 2 1 {} c7listing
    rfl (by decide)

/-- C9: every authenticated create endpoint overwrites the identity
field of the payload with the session user before storing:
`POST /api/food-listings` forces `userId`, `POST /api/messages` forces
`senderId`, `POST /api/transactions` forces `buyerId` — whatever
identity the client sent — in both storage implementations.  The
stored record is the returned one: `MemStorage` stores it under the
fresh key, `DatabaseStorage` appends it as the new row. -/
theorem create_identity_from_caller (s : MemState) (t : DbState)
    (callerId now : Nat) (lb : InsertFoodListing) (mb : InsertMessage)
    (tb : InsertTransaction) :
    ((routePostFoodListing memStorage s callerId lb now).2.1.userId = callerId
      ∧ mapGet (routePostFoodListing memStorage s callerId lb now).2.2.foodListings
          s.currentFoodListingId
        = some (routePostFoodListing memStorage s callerId lb now).2.1)
    ∧ ((routePostFoodListing dbStorage t callerId lb now).2.1.userId = callerId
      ∧ (routePostFoodListing dbStorage t callerId lb now).2.2.foodListings
        = t.foodListings ++ [(routePostFoodListing dbStorage t callerId lb now).2.1])
    ∧ ((routePostMessage memStorage s callerId mb now).2.1.senderId = callerId
      ∧ mapGet (routePostMessage memStorage s callerId mb now).2.2.messages
          s.currentMessageId
        = some (routePostMessage memStorage s callerId mb now).2.1)
    ∧ ((routePostMessage dbStorage t callerId mb now).2.1.senderId = callerId
      ∧ (routePostMessage dbStorage t callerId mb now).2.2.messages
        = t.messages ++ [(routePostMessage dbStorage t callerId mb now).2.1])
    ∧ ((routePostTransaction memStorage s callerId tb now).2.1.buyerId = callerId
      ∧ mapGet (routePostTransaction memStorage s callerId tb now).2.2.transactions
          s.currentTransactionId
        = some (routePostTransaction memStorage s callerId tb now).2.1)
    ∧ ((routePostTransaction dbStorage t callerId tb now).2.1.buyerId = callerId
      ∧ (routePostTransaction dbStorage t callerId tb now).2.2.transactions
        = t.transactions ++ [(routePostTransaction dbStorage t callerId tb now).2.1]) :=
  ⟨⟨rfl, mapGet_mapSet_self _ _ _⟩,
   ⟨rfl, rfl⟩,
   ⟨rfl, mapGet_mapSet_self _ _ _⟩,
   ⟨rfl, rfl⟩,
   ⟨rfl, mapGet_mapSet_self _ _ _⟩,
   ⟨rfl, rfl⟩⟩

/-- C3: `PUT /api/users/profile` never changes any stored password,
whatever the payload contains (even a `password` field): the handler
destructures `password` out of the body before calling `updateUser`.
For `MemStorage` the password under every key is unchanged; for
`DatabaseStorage` the password column of the whole table is unchanged
row by row. -/
theorem profile_update_preserves_password (s : MemState) (t : DbState)
    (callerId : Nat) (body : UserPatch) :
    (∀ k, (mapGet (routePutUsersProfile memStorage s callerId body).2.users k).map
        (fun u => u.password)
      = (mapGet s.users k).map (fun u => u.password))
    ∧ (routePutUsersProfile dbStorage t callerId body).2.users.map
        (fun u => u.password)
      = t.users.map (fun u => u.password) := by
  constructor
  · intro k
    rcases hu : mapGet s.users callerId with _ | u
    · simp only [routePutUsersProfile, memStorage, memUpdateUser, hu]
    · simp only [routePutUsersProfile, memStorage, memUpdateUser, hu]
      by_cases hk : k = callerId
      · subst hk
        rw [mapGet_mapSet_self, hu]
        rfl
      · rw [mapGet_mapSet_ne s.users callerId k _ hk]
  · have hstate : (routePutUsersProfile dbStorage t callerId body).2
        = (dbUpdateUser t callerId { body with password := none }).2 := by
      simp only [routePutUsersProfile, dbStorage]
      rcases hcase : (dbUpdateUser t callerId { body with password := none }).1
        with _ | u
      · rfl
      · rfl
    rw [hstate]
    simp only [dbUpdateUser]
    rw [List.map_map]
    apply List.map_congr_left
    intro r _
    by_cases hr : (r.id == callerId) = true
    · simp only [Function.comp_apply, hr, if_true]
      rfl
    · have hr2 : (r.id == callerId) = false := by simpa using hr
      simp only [Function.comp_apply, hr2, Bool.false_eq_true, if_false]

/-- Payload used by C8: a valid create-listing body with `isFree = true`
and a nonzero price. -/
def c8payload : InsertFoodListing where
  title := "Lasagna"
  description := "Homemade lasagna"
  images := none
  price := some 5
  isFree := some true
  quantity := 2
  portionSize := none
  category := "Meals"
  ingredients := none
  allergens := none
  location := "Springfield"
  latitude := none
  longitude := none
  userId := 999
  expiresAt := 1000

/-- C8: the invariant `isFree → price = 0` is client-only.  The server
create path (the insert schema has no cross-field refinement, see
`InsertFoodListing`, and the create handler is `routePostFoodListing`)
stores `c8payload` with `isFree = true` and `price = 5` unchanged, in
both storage implementations; the client form's submit handler
normalizes the same data to `price = 0` before sending. -/
theorem isFree_price_server_gap :
    ((routePostFoodListing memStorage {} 1 c8payload 0).2.1.price = some 5
      ∧ (routePostFoodListing memStorage {} 1 c8payload 0).2.1.isFree = some true
      ∧ mapGet (routePostFoodListing memStorage {} 1 c8payload 0).2.2.foodListings 1
        = some (routePostFoodListing memStorage {} 1 c8payload 0).2.1)
    ∧ ((routePostFoodListing dbStorage {} 1 c8payload 0).2.1.price = some 5
      ∧ (routePostFoodListing dbStorage {} 1 c8payload 0).2.1.isFree = some true
      ∧ (routePostFoodListing dbStorage {} 1 c8payload 0).2.2.foodListings
        = [(routePostFoodListing dbStorage {} 1 c8payload 0).2.1])
    ∧ (clientOnSubmitListing c8payload [] 1).price = some 0
    ∧ (clientOnSubmitListing c8payload [] 1).isFree = some true :=
  ⟨⟨rfl, rfl, rfl⟩, ⟨rfl, rfl, rfl⟩, rfl, rfl⟩

theorem dbGetMessage_mark (t : DbState) (i : Nat) (m : Message)
    (hm : dbGetMessage t i = some m) :
    dbGetMessage (dbMarkMessageAsRead t i).2 i
      = some { m with isRead := some true } := by
  unfold dbGetMessage at hm
  unfold dbGetMessage dbMarkMessageAsRead
  rw [List.find?_map]
  have hpred : ((fun r : Message => r.id == i)
      ∘ (fun r => if r.id == i then { r with isRead := some true } else r))
      = fun r : Message => r.id == i := by
    funext r
    by_cases hr : (r.id == i) = true
    · simp [Function.comp, hr]
    · have hr2 : (r.id == i) = false := by simpa using hr
      simp [Function.comp, hr2]
  rw [hpred, hm]
  have hmi : (m.id == i) = true := by
    have h2 := List.find?_some (p := fun r : Message => r.id == i) hm
    simpa using h2
  rw [show Option.map (fun r : Message =>
      if r.id == i then { r with isRead := some true } else r) (some m)
    = some (if m.id == i then { m with isRead := some true } else m) from rfl]
  rw [if_pos hmi]

/-- C1 (amended): `PUT /api/messages/:id/read` applies no ownership or
participant check at all.  The claim as stated — a 403 for an
authenticated caller who is neither sender nor receiver, with the
message unchanged — is false
(`messageRead_claim_counterexample`); what actually holds is: for EVERY
caller, in both storage implementations, the handler never returns 403;
when the message exists it returns 204 and flips its `isRead` to true,
participant or not; and when it does not exist it returns 404 with the
state unchanged. -/
theorem messageRead_no_participant_check (s : MemState) (t : DbState)
    (callerId messageId : Nat) :
    (routePutMessageRead memStorage s callerId messageId).1 ≠ 403
    ∧ (∀ m, mapGet s.messages messageId = some m →
        routePutMessageRead memStorage s callerId messageId
          = (204, { s with
              messages := mapSet s.messages messageId { m with isRead := some true } })
        ∧ mapGet (routePutMessageRead memStorage s callerId messageId).2.messages
            messageId = some { m with isRead := some true })
    ∧ (mapGet s.messages messageId = none →
        routePutMessageRead memStorage s callerId messageId = (404, s))
    ∧ (routePutMessageRead dbStorage t callerId messageId).1 ≠ 403
    ∧ (∀ m, dbGetMessage t messageId = some m →
        (routePutMessageRead dbStorage t callerId messageId).1 = 204
        ∧ dbGetMessage (routePutMessageRead dbStorage t callerId messageId).2
            messageId = some { m with isRead := some true })
    ∧ (dbGetMessage t messageId = none →
        routePutMessageRead dbStorage t callerId messageId = (404, t)) := by
  refine ⟨?_, ?_, ?_, ?_, ?_, ?_⟩
  · rcases hm : mapGet s.messages messageId with _ | m
    · simp only [routePutMessageRead, memStorage, memMarkMessageAsRead, hm]
      simp
    · simp only [routePutMessageRead, memStorage, memMarkMessageAsRead, hm]
      simp
  · intro m hm
    simp only [routePutMessageRead, memStorage, memMarkMessageAsRead, hm]
    exact ⟨rfl, mapGet_mapSet_self _ _ _⟩
  · intro hm
    simp only [routePutMessageRead, memStorage, memMarkMessageAsRead, hm]
    rfl
  · cases hany : t.messages.any (fun r => r.id == messageId)
    · simp only [routePutMessageRead, dbStorage, dbMarkMessageAsRead, hany]
      simp
    · simp only [routePutMessageRead, dbStorage, dbMarkMessageAsRead, hany]
      simp
  · intro m hm
    have hany : t.messages.any (fun r => r.id == messageId) = true :=
      List.any_eq_true.mpr
        ⟨m, List.mem_of_find?_eq_some (p := fun r : Message => r.id == messageId) hm,
          List.find?_some (p := fun r : Message => r.id == messageId) hm⟩
    constructor
    · simp only [routePutMessageRead, dbStorage, dbMarkMessageAsRead, hany,
        if_true]
    · have hmark := dbGetMessage_mark t messageId m hm
      simp only [routePutMessageRead, dbStorage, dbMarkMessageAsRead, hany,
        if_true]
      exact hmark
  · intro hm
    have hall : ∀ r ∈ t.messages, (r.id == messageId) = false := by
      intro r hr
      cases hri : r.id == messageId
      · rfl
      · exact absurd hri (List.find?_eq_none.mp hm r hr)
    have hany : t.messages.any (fun r => r.id == messageId) = false :=
      List.any_eq_false.mpr (fun r hr => by simp [hall r hr])
    have hmap : t.messages.map
        (fun r => if r.id == messageId then { r with isRead := some true } else r)
        = t.messages := by
      have hcongr : t.messages.map
          (fun r => if r.id == messageId then { r with isRead := some true } else r)
          = t.messages.map id := by
        apply List.map_congr_left
        intro r hr
        show (if r.id == messageId then { r with isRead := some true } else r) = r
        rw [if_neg (by simp [hall r hr])]
      rw [hcongr, List.map_id]
    simp only [routePutMessageRead, dbStorage, dbMarkMessageAsRead, hany, hmap]
    rfl

/-- Message used by the C1 counterexample: sender 1, receiver 2. -/
def c1msg : Message where
  id := 1
  senderId := 1
  receiverId := 2
  content := "Is this still available?"
  isRead := some false
  createdAt := some 100

/-- `MemStorage` state used by the C1 counterexample and witnesses. -/
def c1state : MemState where
  messages := [(1, c1msg)]
  currentMessageId := 2

/-- `DatabaseStorage` state used by the C1 witness. -/
def c1dbState : DbState where
  messages := [c1msg]
  nextMessageId := 2

/-- C1 is false as stated: user 3 is neither the sender (1) nor the
receiver (2) of message 1, yet the request succeeds with 204 — not
403 — and the stored message changes (its `isRead` flips to true). -/
theorem messageRead_claim_counterexample :
    c1msg.senderId ≠ 3 ∧ c1msg.receiverId ≠ 3
    ∧ (routePutMessageRead memStorage c1state 3 1).1 = 204
    ∧ (routePutMessageRead memStorage c1state 3 1).1 ≠ 403
    ∧ mapGet (routePutMessageRead memStorage c1state 3 1).2.messages 1
        = some { c1msg with isRead := some true }
    ∧ mapGet (routePutMessageRead memStorage c1state 3 1).2.messages 1
        ≠ mapGet c1state.messages 1 :=
  ⟨by decide, by decide, rfl, by decide, rfl, by decide⟩

theorem messageRead_no_participant_check_witness :
    (routePutMessageRead memStorage c1state 3 1
        = (204, { c1state with
            messages := mapSet c1state.messages 1 { c1msg with isRead := some true } })
      ∧ mapGet (routePutMessageRead memStorage c1state 3 1).2.messages 1
        = some { c1msg with isRead := some true })
    ∧ ((routePutMessageRead dbStorage c1dbState 3 1).1 = 204
      ∧ dbGetMessage (routePutMessageRead dbStorage c1dbState 3 1).2 1
        = some { c1msg with isRead := some true })
    ∧ routePutMessageRead memStorage c1state 3 2 = (404, c1state)
    ∧ routePutMessageRead dbStorage c1dbState 3 2 = (404, c1dbState) :=
  ⟨(messageRead_no_participant_check c1state c1dbState 3 1).2.1 c1msg rfl,
   (messageRead_no_participant_check c1state c1dbState 3 1).2.2.2.2.1 c1msg rfl,
   (messageRead_no_participant_check c1state c1dbState 3 2).2.2.1 rfl,
   (messageRead_no_participant_check c1state c1dbState 3 2).2.2.2.2.2 rfl⟩

theorem comp_markFn_eq (i j : Nat) :
    ((fun r : Message => r.id == i)
      ∘ (fun r => if r.id == j then { r with isRead := some true } else r))
      = fun r : Message => r.id == i := by
  funext r
  by_cases hr : (r.id == j) = true
  · simp [Function.comp, hr]
  · have hr2 : (r.id == j) = false := by simpa using hr
    simp [Function.comp, hr2]

theorem markFn_markFn (i : Nat) :
    ((fun r : Message => if r.id == i then { r with isRead := some true } else r)
      ∘ (fun r => if r.id == i then { r with isRead := some true } else r))
      = fun r : Message => if r.id == i then { r with isRead := some true } else r := by
  funext r
  by_cases hr : (r.id == i) = true
  · simp [Function.comp, hr]
  · have hr2 : (r.id == i) = false := by simpa using hr
    simp [Function.comp, hr2]

/-- C5: marking a message read is idempotent (repeating the call changes
neither the result nor the state), one call sets `isRead = true`, and
the flag is monotone: no message operation of either storage
implementation ever takes a stored message from `isRead = true` back to
false.  The monotonicity parts assume the evident key-freshness
invariants (`memMessageInv`, `dbMessageInv`): every stored id is below
the id counter, which holds in every reachable state. -/
theorem markMessageAsRead_idempotent_monotone (s : MemState) (t : DbState)
    (i : Nat) :
    memMarkMessageAsRead (memMarkMessageAsRead s i).2 i = memMarkMessageAsRead s i
    ∧ dbMarkMessageAsRead (dbMarkMessageAsRead t i).2 i = dbMarkMessageAsRead t i
    ∧ (∀ m, mapGet s.messages i = some m →
        mapGet (memMarkMessageAsRead s i).2.messages i
          = some { m with isRead := some true })
    ∧ (∀ op m, memMessageInv s → mapGet s.messages i = some m →
        m.isRead = some true →
        ∃ m2, mapGet (memMessageStep s op).messages i = some m2
          ∧ m2.isRead = some true)
    ∧ (∀ op m, dbMessageInv t → dbGetMessage t i = some m →
        m.isRead = some true →
        ∃ m2, dbGetMessage (dbMessageStep t op) i = some m2
          ∧ m2.isRead = some true) := by
  refine ⟨?_, ?_, ?_, ?_, ?_⟩
  · rcases hm : mapGet s.messages i with _ | m
    · simp only [memMarkMessageAsRead, hm]
    · have h1 : mapGet (mapSet s.messages i { m with isRead := some true }) i
          = some { m with isRead := some true } := mapGet_mapSet_self _ _ _
      simp only [memMarkMessageAsRead, hm, h1]
      rw [mapSet_mapSet_same]
  · have hflag : ((t.messages.map
        (fun r => if r.id == i then { r with isRead := some true } else r)).any
          (fun r => r.id == i))
        = t.messages.any (fun r => r.id == i) := by
      rw [List.any_map, comp_markFn_eq i i]
    have hmsgs : ((t.messages.map
        (fun r => if r.id == i then { r with isRead := some true } else r)).map
          (fun r => if r.id == i then { r with isRead := some true } else r))
        = t.messages.map
            (fun r => if r.id == i then { r with isRead := some true } else r) := by
      rw [List.map_map, markFn_markFn]
    simp only [dbMarkMessageAsRead]
    rw [hflag, hmsgs]
  · intro m hm
    simp only [memMarkMessageAsRead, hm]
    exact mapGet_mapSet_self _ _ _
  · intro op m hinv hm hread
    cases op with
    | create mb now =>
      have hi : i < s.currentMessageId := hinv (i, m) (mapGet_eq_some_mem hm)
      refine ⟨m, ?_, hread⟩
      simp only [memMessageStep, memCreateMessage]
      rw [mapGet_mapSet_ne _ _ _ _ (Nat.ne_of_lt hi)]
      exact hm
    | markRead j =>
      rcases hmj : mapGet s.messages j with _ | mj
      · refine ⟨m, ?_, hread⟩
        simp only [memMessageStep, memMarkMessageAsRead, hmj]
        exact hm
      · by_cases hij : i = j
        · subst hij
          refine ⟨{ mj with isRead := some true }, ?_, rfl⟩
          simp only [memMessageStep, memMarkMessageAsRead, hmj]
          exact mapGet_mapSet_self _ _ _
        · refine ⟨m, ?_, hread⟩
          simp only [memMessageStep, memMarkMessageAsRead, hmj]
          rw [mapGet_mapSet_ne _ _ _ _ hij]
          exact hm
  · intro op m hinv hm hread
    cases op with
    | create mb now =>
      have hmem := List.mem_of_find?_eq_some
        (p := fun r : Message => r.id == i) hm
      have hmid : m.id = i := by
        have h2 := List.find?_some (p := fun r : Message => r.id == i) hm
        simpa using h2
      have hlt : m.id < t.nextMessageId := hinv m hmem
      refine ⟨m, ?_, hread⟩
      simp only [dbMessageStep, dbCreateMessage, dbGetMessage]
      rw [find?_append_of_ne]
      · exact hm
      · show (t.nextMessageId == i) = false
        rw [← hmid]
        simpa using (Nat.ne_of_lt hlt).symm
    | markRead j =>
      simp only [dbMessageStep, dbMarkMessageAsRead, dbGetMessage]
      rw [List.find?_map, comp_markFn_eq i j]
      rw [show (t.messages.find? (fun r => r.id == i)) = some m from hm]
      by_cases hmj : (m.id == j) = true
      · refine ⟨{ m with isRead := some true }, ?_, rfl⟩
        rw [show Option.map (fun r : Message =>
            if r.id == j then { r with isRead := some true } else r) (some m)
          = some (if m.id == j then { m with isRead := some true } else m) from rfl]
        rw [if_pos hmj]
      · have hmj2 : (m.id == j) = false := by simpa using hmj
        refine ⟨m, ?_, hread⟩
        rw [show Option.map (fun r : Message =>
            if r.id == j then { r with isRead := some true } else r) (some m)
          = some (if m.id == j then { m with isRead := some true } else m) from rfl]
        rw [if_neg (by simp [hmj2])]

/-- Message used by the C5 witness (already read). -/
def c5msg : Message where
  id := 1
  senderId := 1
  receiverId := 2
  content := "Thanks"
  isRead := some true
  createdAt := some 50

/-- `MemStorage` state used by the C5 witness. -/
def c5state : MemState where
  messages := [(1, c5msg)]
  currentMessageId := 2

/-- `DatabaseStorage` state used by the C5 witness. -/
def c5dbState : DbState where
  messages := [c5msg]
  nextMessageId := 2

theorem markMessageAsRead_idempotent_monotone_witness :
    mapGet (memMarkMessageAsRead c5state 1).2.messages 1
      = some { c5msg with isRead := some true }
    ∧ (∃ m2, mapGet (memMessageStep c5state (MessageOp.markRead 1)).messages 1
        = some m2 ∧ m2.isRead = some true)
    ∧ (∃ m2, dbGetMessage (dbMessageStep c5dbState (MessageOp.markRead 1)) 1
        = some m2 ∧ m2.isRead = some true) :=
  ⟨(markMessageAsRead_idempotent_monotone c5state c5dbState 1).2.2.1 c5msg rfl,
   (markMessageAsRead_idempotent_monotone c5state c5dbState 1).2.2.2.1
     (MessageOp.markRead 1) c5msg
     (by show ∀ p ∈ c5state.messages, p.1 < c5state.currentMessageId; decide)
     rfl rfl,
   (markMessageAsRead_idempotent_monotone c5state c5dbState 1).2.2.2.2
     (MessageOp.markRead 1) c5msg
     (by show ∀ r ∈ c5dbState.messages, r.id < c5dbState.nextMessageId; decide)
     rfl rfl⟩

/-- C6: `createFoodListing` returns and stores a listing with
`isAvailable = true` in both storage implementations (the create paths
force the flag regardless of payload, which the insert schema cannot
even carry), and the flag can stop being `true` only through an update
operation: in `MemStorage` only an update addressed to that key whose
patch explicitly carries `isAvailable`; in `DatabaseStorage` only an
update whose patch carries `isAvailable` or reassigns row ids (`id` in
the patch) — creation never resets it and the only other writer,
delete, removes the row instead.  The lifecycle parts assume the
key-freshness invariants. -/
theorem listing_availability_lifecycle (s : MemState) (t : DbState)
    (lb : InsertFoodListing) (now : Nat) :
    (memCreateFoodListing s lb now).1.isAvailable = some true
    ∧ mapGet (memCreateFoodListing s lb now).2.foodListings s.currentFoodListingId
        = some (memCreateFoodListing s lb now).1
    ∧ (dbCreateFoodListing t lb now).1.isAvailable = some true
    ∧ (dbCreateFoodListing t lb now).2.foodListings
        = t.foodListings ++ [(dbCreateFoodListing t lb now).1]
    ∧ (∀ op i l l2, memListingInv s → mapGet s.foodListings i = some l →
        l.isAvailable = some true →
        mapGet (memListingStep s op).foodListings i = some l2 →
        l2.isAvailable ≠ some true →
        ∃ p, op = ListingOp.update i p ∧ p.isAvailable ≠ none)
    ∧ (∀ op i l l2, dbListingInv t → dbGetFoodListing t i = some l →
        l.isAvailable = some true →
        dbGetFoodListing (dbListingStep t op) i = some l2 →
        l2.isAvailable ≠ some true →
        ∃ j p, op = ListingOp.update j p
          ∧ (p.isAvailable ≠ none ∨ p.id ≠ none)) := by
  refine ⟨rfl, mapGet_mapSet_self _ _ _, rfl, rfl, ?_, ?_⟩
  · intro op i l l2 hinv hl havail hl2 hna
    cases op with
    | create lb2 now2 =>
      exfalso
      have hi : i < s.currentFoodListingId := hinv (i, l) (mapGet_eq_some_mem hl)
      simp only [memListingStep, memCreateFoodListing] at hl2
      rw [mapGet_mapSet_ne _ _ _ _ (Nat.ne_of_lt hi), hl] at hl2
      exact hna (Option.some.inj hl2 ▸ havail)
    | update j p =>
      rcases hlj : mapGet s.foodListings j with _ | lj
      · exfalso
        simp only [memListingStep, memUpdateFoodListing, hlj] at hl2
        rw [hl] at hl2
        exact hna (Option.some.inj hl2 ▸ havail)
      · by_cases hij : i = j
        · subst hij
          have hllj : l = lj := Option.some.inj (hl ▸ hlj)
          refine ⟨p, rfl, ?_⟩
          intro hpnone
          simp only [memListingStep, memUpdateFoodListing, hlj] at hl2
          rw [mapGet_mapSet_self] at hl2
          have hl2eq : l2 = mergeFoodListing lj p := (Option.some.inj hl2).symm
          apply hna
          rw [hl2eq]
          show p.isAvailable.getD lj.isAvailable = some true
          rw [hpnone, ← hllj]
          exact havail
        · exfalso
          simp only [memListingStep, memUpdateFoodListing, hlj] at hl2
          rw [mapGet_mapSet_ne _ _ _ _ hij, hl] at hl2
          exact hna (Option.some.inj hl2 ▸ havail)
    | delete j =>
      exfalso
      simp only [memListingStep, memDeleteFoodListing] at hl2
      by_cases hij : i = j
      · subst hij
        rw [mapGet_mapDelete_self] at hl2
        exact Option.noConfusion hl2
      · rw [mapGet_mapDelete_ne _ _ _ hij, hl] at hl2
        exact hna (Option.some.inj hl2 ▸ havail)
  · intro op i l l2 hinv hl havail hl2 hna
    have hmid : l.id = i := by
      have h2 := List.find?_some (p := fun r : FoodListing => r.id == i) hl
      simpa using h2
    cases op with
    | create lb2 now2 =>
      exfalso
      have hmem := List.mem_of_find?_eq_some
        (p := fun r : FoodListing => r.id == i) hl
      have hlt : l.id < t.nextFoodListingId := hinv l hmem
      simp only [dbListingStep, dbCreateFoodListing, dbGetFoodListing] at hl2
      rw [find?_append_of_ne _ _ _ ?hfresh] at hl2
      case hfresh =>
        show (t.nextFoodListingId == i) = false
        rw [← hmid]
        simpa using (Nat.ne_of_lt hlt).symm
      rw [show t.foodListings.find? (fun r => r.id == i) = some l from hl] at hl2
      exact hna (Option.some.inj hl2 ▸ havail)
    | update j p =>
      refine ⟨j, p, rfl, ?_⟩
      by_contra hcon
      push_neg at hcon
      rcases hcon with ⟨hpa, hpid⟩
      have hidpres : ∀ r : FoodListing, (mergeFoodListing r p).id = r.id := by
        intro r
        show p.id.getD r.id = r.id
        rw [hpid]
        rfl
      have hcomp : ((fun r : FoodListing => r.id == i)
          ∘ (fun r => if r.id == j then mergeFoodListing r p else r))
          = fun r : FoodListing => r.id == i := by
        funext r
        by_cases hr : (r.id == j) = true
        · simp [Function.comp, hr, hidpres r]
        · have hr2 : (r.id == j) = false := by simpa using hr
          simp [Function.comp, hr2]
      simp only [dbListingStep, dbUpdateFoodListing, dbGetFoodListing] at hl2
      rw [List.find?_map, hcomp,
        show t.foodListings.find? (fun r => r.id == i) = some l from hl] at hl2
      rw [show Option.map (fun r : FoodListing =>
          if r.id == j then mergeFoodListing r p else r) (some l)
        = some (if l.id == j then mergeFoodListing l p else l) from rfl] at hl2
      by_cases hlj : (l.id == j) = true
      · rw [if_pos hlj] at hl2
        apply hna
        rw [(Option.some.inj hl2).symm]
        show p.isAvailable.getD l.isAvailable = some true
        rw [hpa]
        exact havail
      · rw [if_neg (by simp [hlj])] at hl2
        exact hna (Option.some.inj hl2 ▸ havail)
    | delete j =>
      exfalso
      simp only [dbListingStep, dbDeleteFoodListing, dbGetFoodListing] at hl2
      by_cases hij : i = j
      · subst hij
        have hnone : (t.foodListings.filter (fun r => r.id != i)).find?
            (fun r => r.id == i) = none := by
          rw [List.find?_eq_none]
          intro x hx
          have h2 := (List.mem_filter.mp hx).2
          simp only [bne_iff_ne, ne_eq] at h2
          simpa using h2
        rw [hnone] at hl2
        exact Option.noConfusion hl2
      · rw [find?_filter_of_imp _ _ _ ?himp] at hl2
        case himp =>
          intro x hxi
          have : x.id = i := by simpa using hxi
          simp only [bne_iff_ne, ne_eq, this]
          exact hij
        rw [show t.foodListings.find? (fun r => r.id == i) = some l from hl] at hl2
        exact hna (Option.some.inj hl2 ▸ havail)

/-- Listing used by the C6 witness (available, owned by user 1). -/
def c6listing : FoodListing where
  id := 1
  title := "Bread"
  description := "Sourdough loaf"
  images := none
  price := some 2
  isFree := some false
  quantity := 3
  portionSize := none
  category := "Bakery"
  ingredients := none
  allergens := none
  expiresAt := 20
  location := "Shelbyville"
  latitude := none
  longitude := none
  userId := 1
  isAvailable := some true
  createdAt := some 0

/-- Patch used by the C6 witness: explicitly sets `isAvailable` false. -/
def c6patch : FoodListingPatch where
  isAvailable := some (some false)

/-- Payload used by the C6 witness (its content is irrelevant). -/
def c6insert : InsertFoodListing where
  title := "Apples"
  description := "A bag of apples"
  images := none
  price := none
  isFree := some true
  quantity := 1
  portionSize := none
  category := "Produce"
  ingredients := none
  allergens := none
  location := "Shelbyville"
  latitude := none
  longitude := none
  userId := 1
  expiresAt := 30

/-- `MemStorage` state used by the C6 witness. -/
def c6state : MemState where
  foodListings := [(1, c6listing)]
  currentFoodListingId := 2

/-- `DatabaseStorage` state used by the C6 witness. -/
def c6dbState : DbState where
  foodListings := [c6listing]
  nextFoodListingId := 2

theorem listing_availability_lifecycle_witness :
    (∃ p, ListingOp.update 1 c6patch = ListingOp.update 1 p
      ∧ p.isAvailable ≠ none)
    ∧ (∃ j p, ListingOp.update 1 c6patch = ListingOp.update j p
      ∧ (p.isAvailable ≠ none ∨ p.id ≠ none)) :=
  ⟨(listing_availability_lifecycle c6state c6dbState c6insert 0).2.2.2.2.1
      (ListingOp.update 1 c6patch) 1 c6listing
      (mergeFoodListing c6listing c6patch)
      (by show ∀ q ∈ c6state.foodListings, q.1 < c6state.currentFoodListingId
          decide)
      rfl rfl rfl (by decide),
   (listing_availability_lifecycle c6state c6dbState c6insert 0).2.2.2.2.2
      (ListingOp.update 1 c6patch) 1 c6listing
      (mergeFoodListing c6listing c6patch)
      (by show ∀ r ∈ c6dbState.foodListings, r.id < c6dbState.nextFoodListingId
          decide)
      rfl rfl rfl (by decide)⟩

/-- C4: for any two users `a` and `b`, `getConversation` returns exactly
the stored messages whose sender/receiver pair is `(a, b)` in either
direction — so every message between them is in the result — and, on
states whose stored messages carry their creation timestamp (every
message either implementation ever stores does: both create paths set
it), the result is sorted non-decreasing by creation time.  Proved for
both storage implementations. -/
theorem getConversation_exact_sorted (s : MemState) (t : DbState) (a b : Nat) :
    (∀ m, m ∈ memGetConversation s a b ↔
        m ∈ mapValues s.messages ∧
          ((m.senderId = a ∧ m.receiverId = b)
            ∨ (m.senderId = b ∧ m.receiverId = a)))
    ∧ ((∀ m ∈ mapValues s.messages, m.createdAt.isSome) →
        (memGetConversation s a b).Pairwise
          (fun x y => x.createdAt.getD 0 ≤ y.createdAt.getD 0))
    ∧ (∀ m, m ∈ dbGetConversation t a b ↔
        m ∈ t.messages ∧
          ((m.senderId = a ∧ m.receiverId = b)
            ∨ (m.senderId = b ∧ m.receiverId = a)))
    ∧ ((∀ m ∈ t.messages, m.createdAt.isSome) →
        (dbGetConversation t a b).Pairwise
          (fun x y => x.createdAt.getD 0 ≤ y.createdAt.getD 0)) := by
  refine ⟨?_, ?_, ?_, ?_⟩
  · intro m
    simp [memGetConversation, mem_sortLe, List.mem_filter, conversationPred]
  · intro hsome
    unfold memGetConversation
    rw [sortLe_congr memMsgLe tsLe _ ?hagree]
    case hagree =>
      intro x hx y hy
      exact memMsgLe_eq_tsLe x y
        (hsome x (List.mem_filter.mp hx).1) (hsome y (List.mem_filter.mp hy).1)
    have hp := pairwise_sortLe tsLe tsLe_total tsLe_trans
      ((mapValues s.messages).filter (conversationPred a b))
    exact hp.imp (fun h => by simpa [tsLe] using h)
  · intro m
    simp [dbGetConversation, mem_sortLe, List.mem_filter, conversationPred]
  · intro hsome
    unfold dbGetConversation
    rw [sortLe_congr dbMsgLe tsLe _ ?hagree2]
    case hagree2 =>
      intro x hx y hy
      exact dbMsgLe_eq_tsLe x y
        (hsome x (List.mem_filter.mp hx).1) (hsome y (List.mem_filter.mp hy).1)
    have hp := pairwise_sortLe tsLe tsLe_total tsLe_trans
      (t.messages.filter (conversationPred a b))
    exact hp.imp (fun h => by simpa [tsLe] using h)

/-- Messages used by the C4 witness: two messages between users 1 and 2,
stored in non-chronological order. -/
def c4msgA : Message where
  id := 1
  senderId := 1
  receiverId := 2
  content := "Hello"
  isRead := some false
  createdAt := some 200

/-- Second message of the C4 witness (earlier than `c4msgA`). -/
def c4msgB : Message where
  id := 2
  senderId := 2
  receiverId := 1
  content := "Hi"
  isRead := some false
  createdAt := some 100

/-- `MemStorage` state used by the C4 witness. -/
def c4state : MemState where
  messages := [(1, c4msgA), (2, c4msgB)]
  currentMessageId := 3

/-- `DatabaseStorage` state used by the C4 witness. -/
def c4dbState : DbState where
  messages := [c4msgA, c4msgB]
  nextMessageId := 3

theorem getConversation_exact_sorted_witness :
    (memGetConversation c4state 1 2).Pairwise
      (fun x y => x.createdAt.getD 0 ≤ y.createdAt.getD 0)
    ∧ (dbGetConversation c4dbState 1 2).Pairwise
      (fun x y => x.createdAt.getD 0 ≤ y.createdAt.getD 0) :=
  ⟨(getConversation_exact_sorted c4state c4dbState 1 2).2.1
      (by show ∀ m ∈ mapValues c4state.messages, m.createdAt.isSome
          decide),
   (getConversation_exact_sorted c4state c4dbState 1 2).2.2.2
      (by show ∀ m ∈ c4dbState.messages, m.createdAt.isSome
          decide)⟩

theorem memLocationPred_iff (lat lng radiusMiles : ℚ) (l : FoodListing) :
    memLocationPred lat lng radiusMiles l = true ↔
      truthyNum l.latitude = true ∧ truthyNum l.longitude = true
      ∧ truthyBool l.isAvailable = true
      ∧ Real.sqrt ((|l.latitude.getD 0 - lat| : ℝ) * (|l.latitude.getD 0 - lat| : ℝ)
            + (|l.longitude.getD 0 - lng| : ℝ) * (|l.longitude.getD 0 - lng| : ℝ)) * 69
          ≤ (radiusMiles : ℝ) := by
  unfold memLocationPred
  by_cases h1 : truthyNum l.latitude = true
  · by_cases h2 : truthyNum l.longitude = true
    · rw [if_neg (by simp [h1, h2])]
      rw [Bool.and_eq_true, approxDistanceWithin_iff_sqrt]
      constructor
      · rintro ⟨hs, hb⟩
        exact ⟨h1, h2, hb, by push_cast at hs ⊢; exact hs⟩
      · rintro ⟨_, _, hb, hs⟩
        exact ⟨by push_cast at hs ⊢; exact hs, hb⟩
    · have h2f : truthyNum l.longitude = false := by simpa using h2
      rw [if_pos (by simp [h2f])]
      simp [h2f]
  · have h1f : truthyNum l.latitude = false := by simpa using h1
    rw [if_pos (by simp [h1f])]
    simp [h1f]

/-- C2 (amended): what the two location searches actually return.
`MemStorage.getFoodListingsByLocation` returns exactly the stored
listings that are available, whose coordinates are both present AND
nonzero (the guard is a JavaScript falsiness test), and whose
PLANAR-APPROXIMATION distance
`sqrt(latDiff² + lngDiff²) · 69` — not the haversine great-circle
distance — is within the radius.  `DatabaseStorage` returns exactly the
rows with `isAvailable = true`, both coordinates present and nonzero,
and the external `calculateDistance` test (abstracted as `within`)
passing.  The claim as stated fails on the zero-coordinate exclusion
alone (`location_search_claim_counterexample`). -/
theorem location_search_characterization (s : MemState) (t : DbState)
    (lat lng radiusMiles : ℚ) (within : ℚ → ℚ → Bool) :
    (∀ l, l ∈ memGetFoodListingsByLocation s lat lng radiusMiles ↔
        l ∈ mapValues s.foodListings
        ∧ truthyNum l.latitude = true ∧ truthyNum l.longitude = true
        ∧ truthyBool l.isAvailable = true
        ∧ Real.sqrt ((|l.latitude.getD 0 - lat| : ℝ) * (|l.latitude.getD 0 - lat| : ℝ)
              + (|l.longitude.getD 0 - lng| : ℝ) * (|l.longitude.getD 0 - lng| : ℝ)) * 69
            ≤ (radiusMiles : ℝ))
    ∧ (∀ l, l ∈ dbGetFoodListingsByLocation within t ↔
        l ∈ t.foodListings
        ∧ l.isAvailable = some true
        ∧ truthyNum l.latitude = true ∧ truthyNum l.longitude = true
        ∧ within (l.latitude.getD 0) (l.longitude.getD 0) = true) := by
  constructor
  · intro l
    rw [memGetFoodListingsByLocation, List.mem_filter, memLocationPred_iff]
  · intro l
    rw [dbGetFoodListingsByLocation, List.mem_filter, List.mem_filter]
    constructor
    · rintro ⟨⟨hmem, havail⟩, hpred⟩
      have havail2 : l.isAvailable = some true := by simpa using havail
      by_cases h1 : truthyNum l.latitude = true
      · by_cases h2 : truthyNum l.longitude = true
        · rw [if_neg (by simp [h1, h2])] at hpred
          exact ⟨hmem, havail2, h1, h2, hpred⟩
        · rw [if_pos (by simp [(by simpa using h2 : truthyNum l.longitude = false)])]
            at hpred
          exact absurd hpred (by simp)
      · rw [if_pos (by simp [(by simpa using h1 : truthyNum l.latitude = false)])]
          at hpred
        exact absurd hpred (by simp)
    · rintro ⟨hmem, havail, h1, h2, hw⟩
      refine ⟨⟨hmem, by simp [havail]⟩, ?_⟩
      rw [if_neg (by simp [h1, h2])]
      exact hw

/-- Listing used by the C2 counterexample: available, sits exactly at the
query point, but its latitude is the (perfectly valid) coordinate 0. -/
def c2listing : FoodListing where
  id := 1
  title := "Rice"
  description := "Cooked rice"
  images := none
  price := none
  isFree := some true
  quantity := 1
  portionSize := none
  category := "Meals"
  ingredients := none
  allergens := none
  expiresAt := 50
  location := "Gulf of Guinea"
  latitude := some 0
  longitude := some 10
  userId := 1
  isAvailable := some true
  createdAt := some 0

/-- State used by the C2 counterexample. -/
def c2state : MemState where
  foodListings := [(1, c2listing)]
  currentFoodListingId := 2

/-- C2 is false as stated: `c2listing` is available, has both
coordinates present, and its great-circle (haversine) distance to the
query point (0, 10) is 0 ≤ 100 — the claim says it must be returned —
yet `MemStorage.getFoodListingsByLocation` excludes it, because the
falsiness guard drops latitude 0 (and the distance the code uses is the
planar approximation, not the haversine formula). -/
theorem location_search_claim_counterexample :
    c2listing.isAvailable = some true
    ∧ c2listing.latitude = some 0
    ∧ c2listing.longitude = some 10
    ∧ haversineMiles 0 10 0 10 ≤ 100
    ∧ c2listing ∈ mapValues c2state.foodListings
    ∧ c2listing ∉ memGetFoodListingsByLocation c2state 0 10 100 := by
  refine ⟨rfl, rfl, rfl, ?_, ?_, ?_⟩
  · rw [haversineMiles_self]
    norm_num
  · simp [mapValues, c2state]
  · decide

theorem locationGuard_true_of_zero (l : FoodListing)
    (h : l.latitude = some 0 ∨ l.longitude = some 0) :
    (!(truthyNum l.latitude) || !(truthyNum l.longitude)) = true := by
  rcases h with h | h
  · rw [h]
    simp [truthyNum]
  · rw [h]
    simp [truthyNum]

/-- C10: in both implementations the missing-coordinate test of
location search is a falsiness check, so a listing whose latitude or
longitude is exactly 0 is excluded from every location search — for
every state, query point, radius, and (for `DatabaseStorage`) every
distance predicate. -/
theorem zero_coordinate_excluded (s : MemState) (t : DbState)
    (lat lng radiusMiles : ℚ) (within : ℚ → ℚ → Bool) (l : FoodListing)
    (h : l.latitude = some 0 ∨ l.longitude = some 0) :
    l ∉ memGetFoodListingsByLocation s lat lng radiusMiles
    ∧ l ∉ dbGetFoodListingsByLocation within t := by
  have hg := locationGuard_true_of_zero l h
  constructor
  · intro hmem
    have hp := (List.mem_filter.mp hmem).2
    have hpred : memLocationPred lat lng radiusMiles l = false := by
      unfold memLocationPred
      rw [if_pos hg]
    rw [hpred] at hp
    exact Bool.noConfusion hp
  · intro hmem
    have hp := (List.mem_filter.mp hmem).2
    have hp2 : (if !(truthyNum l.latitude) || !(truthyNum l.longitude) then false
        else within (l.latitude.getD 0) (l.longitude.getD 0)) = true := hp
    rw [if_pos hg] at hp2
    exact Bool.noConfusion hp2

/-- Listing used by the C10 witness: longitude 0. -/
def c10listing : FoodListing where
  id := 1
  title := "Tea"
  description := "Box of tea"
  images := none
  price := none
  isFree := some true
  quantity := 1
  portionSize := none
  category := "Drinks"
  ingredients := none
  allergens := none
  expiresAt := 60
  location := "Greenwich"
  latitude := some 51
  longitude := some 0
  userId := 1
  isAvailable := some true
  createdAt := some 0

/-- `MemStorage` state used by the C10 witness. -/
def c10state : MemState where
  foodListings := [(1, c10listing)]
  currentFoodListingId := 2

/-- `DatabaseStorage` state used by the C10 witness. -/
def c10dbState : DbState where
  foodListings := [c10listing]
  nextFoodListingId := 2

theorem zero_coordinate_excluded_witness :
    c10listing ∉ memGetFoodListingsByLocation c10state 51 0 1000
    ∧ c10listing ∉ dbGetFoodListingsByLocation (fun _ _ => true) c10dbState :=
  zero_coordinate_excluded c10state c10dbState 51 0 1000 (fun _ _ => true)
    c10listing (Or.inr rfl)

theorem setEntry_key {α : Type} (k : Nat) (v : α) (p : Nat × α) :
    (setEntry k v p).1 = p.1 := by
  by_cases hp : (p.1 == k) = true
  · rw [setEntry_of_beq_true k v p hp]
    simpa using (by simpa using hp : p.1 = k).symm
  · rw [setEntry_of_beq_false k v p (by simpa using hp)]

theorem mapSet_keys_lt {α : Type} (l : List (Nat × α)) (k bound : Nat) (v : α)
    (hl : ∀ p ∈ l, p.1 < bound) (hk : k < bound) :
    ∀ p ∈ mapSet l k v, p.1 < bound := by
  intro q hq
  unfold mapSet at hq
  by_cases hhas : mapHas l k = true
  · rw [if_pos hhas] at hq
    rcases List.mem_map.mp hq with ⟨p, hp, hpe⟩
    rw [← hpe, setEntry_key]
    exact hl p hp
  · rw [if_neg hhas] at hq
    rcases List.mem_append.mp hq with hq | hq
    · exact hl q hq
    · rcases List.mem_singleton.mp hq with rfl
      exact hk

/-- The key-freshness invariant of `MemStorage` messages holds in the
initial state and is preserved by every message operation, so it holds
in every reachable state. -/
theorem memMessageInv_step (s : MemState) (op : MessageOp)
    (h : memMessageInv s) : memMessageInv (memMessageStep s op) := by
  cases op with
  | create m now =>
    intro q hq
    simp only [memMessageStep, memCreateMessage] at hq ⊢
    exact mapSet_keys_lt s.messages s.currentMessageId (s.currentMessageId + 1)
      _ (fun p hp => Nat.lt_succ_of_lt (h p hp)) (Nat.lt_succ_self _) q hq
  | markRead id =>
    rcases hm : mapGet s.messages id with _ | m
    · simp only [memMessageStep, memMarkMessageAsRead, hm]
      exact h
    · intro q hq
      simp only [memMessageStep, memMarkMessageAsRead, hm] at hq ⊢
      have hid : id < s.currentMessageId := h (id, m) (mapGet_eq_some_mem hm)
      exact mapSet_keys_lt s.messages id s.currentMessageId _ h hid q hq

/-- The primary-key-freshness invariant of `DatabaseStorage` messages
holds initially and is preserved by every message operation. -/
theorem dbMessageInv_step (t : DbState) (op : MessageOp)
    (h : dbMessageInv t) : dbMessageInv (dbMessageStep t op) := by
  cases op with
  | create m now =>
    intro r hr
    simp only [dbMessageStep, dbCreateMessage] at hr ⊢
    rcases List.mem_append.mp hr with hr | hr
    · exact Nat.lt_succ_of_lt (h r hr)
    · rcases List.mem_singleton.mp hr with rfl
      exact Nat.lt_succ_self _
  | markRead id =>
    intro r hr
    simp only [dbMessageStep, dbMarkMessageAsRead] at hr ⊢
    rcases List.mem_map.mp hr with ⟨r0, hr0, hre⟩
    have hkey : r.id = r0.id := by
      rw [← hre]
      by_cases h0 : (r0.id == id) = true
      · simp [h0]
      · simp [(by simpa using h0 : (r0.id == id) = false)]
    rw [hkey]
    exact h r0 hr0
